import Mathlib

/-!
Shallow embedding of `sotorch/opt.py` (class `Minimizer`): the derivative
adapters `_obj_npy` / `_jac_npy` / `_hess_npy`, the keyword-argument
processing and capability resolution at the top of `Minimizer.minimize`,
and the batch dispatch / result assembly in its body.  The external
`scipy.optimize.minimize` solver is opaque and is modelled as a parameter;
numeric scalars are rationals.
-/

namespace Sotorch

/-- Python values as they occur in the keyword configuration of
`Minimizer.minimize`: `None`, booleans, numeric scalars, strings, tuples,
lists, and opaque objects (callables, solver option objects, ...) identified
by a tag. -/
inductive PyVal where
  | none : PyVal
  | bool : Bool → PyVal
  | num : ℚ → PyVal
  | str : String → PyVal
  | tuple : List PyVal → PyVal
  | list : List PyVal → PyVal
  | callable : Nat → PyVal

/-- Python exceptions that `Minimizer.minimize` can raise. -/
inductive PyErr where
  | keyError : String → PyErr
  | notImplementedError : PyErr
  | typeError : PyErr
  | indexError : PyErr
  | valueError : PyErr
deriving DecidableEq

/-- Python truthiness, as used by `if batchwise:`. -/
def pyTruthy : PyVal → Bool
  | .none => false
  | .bool b => b
  | .num q => decide (q ≠ 0)
  | .str s => decide (s ≠ "")
  | .tuple [] => false
  | .tuple (_ :: _) => true
  | .list [] => false
  | .list (_ :: _) => true
  | .callable _ => true

/-- Python `v is None` (also `v == None` for the built-in values modelled
here: only `None` compares equal to `None`). -/
def pyIsNone : PyVal → Bool
  | .none => true
  | _ => false

/-- Python `v == ()`: only the empty tuple compares equal to `()`. -/
def pyIsEmptyTuple : PyVal → Bool
  | .tuple [] => true
  | _ => false

/-- Python `v == []`: only the empty list compares equal to `[]`. -/
def pyIsEmptyList : PyVal → Bool
  | .list [] => true
  | _ => false

/-- Python `v == s` for a string literal `s`. -/
def pyIsStr : PyVal → String → Bool
  | .str t, s => t == s
  | _, _ => false

/-- Python `v in [s1, ..., sk]` for a list of string literals, as used by
the capability checks `method in [...]` in `Minimizer.minimize`. -/
def methodIn (m : PyVal) (l : List String) : Bool :=
  l.any (fun s => pyIsStr m s)

/-- Python subscription `v[i]` for a natural index, as used by
`args[i]`, `bounds[i]`, `constraints[i]`, `tol[i]` in the batch loop:
tuples, lists and strings index positionally (`IndexError` out of range),
every other value raises `TypeError`. -/
def getItem : PyVal → Nat → Except PyErr PyVal
  | .tuple xs, i =>
    match xs[i]? with
    | some v => .ok v
    | Option.none => .error .indexError
  | .list xs, i =>
    match xs[i]? with
    | some v => .ok v
    | Option.none => .error .indexError
  | .str s, i =>
    match s.data[i]? with
    | some c => .ok (.str (String.mk [c]))
    | Option.none => .error .indexError
  | .none, _ => .error .typeError
  | .bool _, _ => .error .typeError
  | .num _, _ => .error .typeError
  | .callable _, _ => .error .typeError

example : getItem (.num 1) 0 = .error .typeError := rfl
example : getItem (.list [.none, .num 3]) 1 = .ok (.num 3) := rfl
example : pyTruthy (.bool true) = true := rfl
example : methodIn (.str "CG") ["CG", "BFGS"] = true := rfl
example : methodIn .none ["CG", "BFGS"] = false := rfl

/-- A numpy array / torch tensor: a shape and the row-major flat data.
`x0.detach().numpy()` and `torch.from_numpy` are identities in this model. -/
structure Tensor where
  shape : List Nat
  data : List ℚ
deriving DecidableEq

/-- Number of elements, `t.size` in numpy. -/
def Tensor.numel (t : Tensor) : Nat := t.shape.prod

/-- numpy `t.reshape(s)` for an explicit target shape, as used by
`res.reshape(x0_shape)`: succeeds exactly when the element counts agree. -/
def reshapeTo (t : Tensor) (s : List Nat) : Except PyErr Tensor :=
  if t.data.length = s.prod then .ok ⟨s, t.data⟩ else .error .valueError

/-- numpy `t.reshape(b, -1)`, as used by `x0.reshape(b, -1)` on the
trust-constr batch path: the second dimension is inferred, which requires
`b` nonzero and dividing the element count. -/
def reshapeInfer (t : Tensor) (b : Nat) : Except PyErr Tensor :=
  if b ≠ 0 ∧ t.data.length % b = 0 then
    .ok ⟨[b, t.data.length / b], t.data⟩
  else .error .valueError

/-- numpy `t.reshape(-1)`, as used by `x0.reshape(-1)` on the trust-constr
single-instance path: flatten to one dimension. -/
def reshapeFlat (t : Tensor) : Tensor := ⟨[t.data.length], t.data⟩

/-- Element `i` of iterating a numpy array over its leading dimension
(`for i, x0_ in enumerate(x0)`): the sub-tensor of shape `t.shape.tail`
holding the `i`-th row-major block of the data. -/
def instSlice (t : Tensor) (i : Nat) : Tensor :=
  ⟨t.shape.tail, (t.data.drop (i * t.shape.tail.prod)).take t.shape.tail.prod⟩

/-- numpy `np.array(all_res)` on the list of per-instance solution vectors:
stacks equal-length vectors into a 2-D array, errors on ragged input. -/
def npStack : List (List ℚ) → Except PyErr Tensor
  | [] => .ok ⟨[0], []⟩
  | x :: rest =>
    if rest.all (fun r => r.length = x.length) then
      .ok ⟨[(x :: rest).length, x.length], (x :: rest).flatten⟩
    else .error .valueError

/-! ### The derivative adapters (`_obj_npy`, `_jac_npy`, `_hess_npy`)

The only mutable state of a `Minimizer` is `self.min_obj`, a running
minimum of observed objective values; `float('inf')` is modelled as
`(⊤ : WithTop ℚ)`.  The torch objective `self._obj_tc` and the autodiff
services `jacobian` / `hessian` from `sotorch.grad` are opaque and appear
as function parameters taking the flat numeric vector and the extra
`args` value. -/

/-- The state of a `Minimizer` object: the `min_obj` field. -/
structure MinimizerState where
  min_obj : WithTop ℚ

/-- The update `self.min_obj = min(y, self.min_obj)` performed by
`_obj_npy` for one observed objective value `y`. -/
def objUpdate (s : WithTop ℚ) (y : ℚ) : WithTop ℚ := min (↑y) s

/-- The adapter `Minimizer._obj_npy`: evaluate the objective at `x`, record the value
in the running minimum, and return it. -/
def Minimizer.obj_npy (objective : List ℚ → PyVal → ℚ) (s : MinimizerState)
    (x : List ℚ) (a : PyVal) : MinimizerState × ℚ :=
  let y := objective x a
  (⟨objUpdate s.min_obj y⟩, y)

/-- The adapter `Minimizer._jac_npy`: compute the gradient of the objective at `x` via
the autodiff service; the minimizer state is passed through untouched. -/
def Minimizer.jac_npy (jacobianService : List ℚ → PyVal → List ℚ)
    (s : MinimizerState) (x : List ℚ) (a : PyVal) : MinimizerState × List ℚ :=
  (s, jacobianService x a)

/-- The adapter `Minimizer._hess_npy`: compute the Hessian of the objective at `x` via
the autodiff service; the minimizer state is passed through untouched. -/
def Minimizer.hess_npy (hessianService : List ℚ → PyVal → List (List ℚ))
    (s : MinimizerState) (x : List ℚ) (a : PyVal) : MinimizerState × List (List ℚ) :=
  (s, hessianService x a)

/-! ### Keyword processing and capability resolution (lines 65–108) -/

/-- The gradient-capable methods of the `jac` capability check. -/
def gradMethods : List String :=
  ["CG", "BFGS", "Newton-CG", "L-BFGS-B", "TNC", "SLSQP", "dogleg",
   "trust-ncg", "trust-krylov", "trust-exact", "trust-constr"]

/-- The Hessian-capable methods of the `hess` capability check. -/
def hessMethods : List String :=
  ["Newton-CG", "dogleg", "trust-ncg", "trust-krylov", "trust-exact",
   "trust-constr"]

/-- The configuration extracted from `kwargs` by `Minimizer.minimize`
before dispatch.  `jac` / `hess` record whether the corresponding
derivative adapter is supplied to the solver (the code passes either
`self._jac_npy` or `None`, and likewise for `hess`). -/
structure Config where
  args : PyVal
  method : PyVal
  jac : Bool
  hess : Bool
  bounds : PyVal
  options : PyVal
  constraints : PyVal
  tol : PyVal
  callback : PyVal
  batchwise : PyVal

/-- The `jac` capability resolution: explicitly passing `jac=None`
disables the gradient callback; otherwise `self._jac_npy` is supplied
exactly when the method is gradient-capable. -/
def jacFlag (kwargs : List (String × PyVal)) (method : PyVal) : Bool :=
  if (match kwargs.lookup "jac" with
      | some v => pyIsNone v
      | Option.none => false) then
    false
  else methodIn method gradMethods

/-- The `hess` capability resolution: explicitly passing `hess=None`
disables the Hessian callback; otherwise `self._hess_npy` is supplied
exactly when the method is Hessian-capable. -/
def hessFlag (kwargs : List (String × PyVal)) (method : PyVal) : Bool :=
  if (match kwargs.lookup "hess" with
      | some v => pyIsNone v
      | Option.none => false) then
    false
  else methodIn method hessMethods

/-- Lines 65–108 of `Minimizer.minimize`: extract `args` (`KeyError` when
missing), default `method` to `None`, resolve the `jac` / `hess`
capabilities, reject `hessp` with `NotImplementedError`, default the
remaining options, and extract `batchwise` (`KeyError` when missing). -/
def parseKwargs (kwargs : List (String × PyVal)) : Except PyErr Config :=
  match kwargs.lookup "args" with
  | Option.none => .error (.keyError "args")
  | some args =>
    match kwargs.lookup "hessp" with
    | some _ => .error .notImplementedError
    | Option.none =>
      match kwargs.lookup "batchwise" with
      | Option.none => .error (.keyError "batchwise")
      | some batchwise =>
        .ok ⟨args, (kwargs.lookup "method").getD .none,
             jacFlag kwargs ((kwargs.lookup "method").getD .none),
             hessFlag kwargs ((kwargs.lookup "method").getD .none),
             (kwargs.lookup "bounds").getD .none,
             (kwargs.lookup "options").getD .none,
             (kwargs.lookup "constraints").getD (.tuple []),
             (kwargs.lookup "tol").getD .none,
             (kwargs.lookup "callback").getD .none, batchwise⟩

example :
    parseKwargs [("args", .tuple []), ("batchwise", .bool true)] =
      .ok ⟨.tuple [], .none, false, false, .none, .none, .tuple [], .none,
           .none, .bool true⟩ := rfl
example : parseKwargs [("hessp", .none)] = .error (.keyError "args") := rfl
example :
    parseKwargs [("args", .tuple []), ("hessp", .bool true)] =
      .error .notImplementedError := rfl

/-! ### Batch dispatch and result assembly (lines 110–167)

`scipy.optimize.minimize` is an external black box.  One invocation is
recorded as a `SolverCall` (everything `Minimizer.minimize` passes except
the constant callbacks `self._obj_npy` / `self._jac_npy` / `self._hess_npy`,
whose presence is the `jacSupplied` / `hessSupplied` flags); the solver is
a function from the call to an outcome.  Besides `res.x`, `res.success`
and `res.message`, the outcome carries `evals`: the sequence of objective
values the solver observed through the `_obj_npy` callback during that
solve, which is what drives the `min_obj` update. -/

/-- One invocation of the external `scipy.optimize.minimize`. -/
structure SolverCall where
  x0 : Tensor
  args : PyVal
  method : PyVal
  jacSupplied : Bool
  hessSupplied : Bool
  bounds : PyVal
  options : PyVal
  constraints : PyVal
  tol : PyVal
  callback : PyVal

/-- What one external solve produces: `res.x` (a flat vector), `res.success`,
`res.message`, and the objective values observed via the value callback. -/
structure SolverOutcome where
  x : List ℚ
  success : Bool
  message : String
  evals : List ℚ

/-- The opaque external solver. -/
def Solver : Type := SolverCall → SolverOutcome

/-- Folding the `min_obj` updates of a sequence of value evaluations. -/
def runEvals (s : WithTop ℚ) (ys : List ℚ) : WithTop ℚ := ys.foldl objUpdate s

/-- Accumulators of the batch loop: `all_res`, `suc`, `msg`, the running
`self.min_obj`, plus the trace of solver invocations made so far. -/
structure LoopState where
  calls : List SolverCall
  allRes : List (List ℚ)
  suc : List Bool
  msg : List String
  minObj : WithTop ℚ

/-- Assembling the arguments of the solver call for batch instance `i`:
`args[i]`, `bounds[i]`, `constraints[i]`, `tol[i]` (indexed in the order
the call expression evaluates them; the first failing subscription raises)
together with the shared `method` / callbacks / `options` / `callback`
and the instance's slice of `x0`. -/
def prepareCall (x0b : Tensor) (argsN boundsN consN tolN : PyVal)
    (method : PyVal) (jacS hessS : Bool) (options callback : PyVal)
    (i : Nat) : Except PyErr SolverCall :=
  match getItem argsN i with
  | .error e => .error e
  | .ok ai =>
    match getItem boundsN i with
    | .error e => .error e
    | .ok bi =>
      match getItem consN i with
      | .error e => .error e
      | .ok ci =>
        match getItem tolN i with
        | .error e => .error e
        | .ok ti =>
          .ok ⟨instSlice x0b i, ai, method, jacS, hessS, bi, options, ci,
               ti, callback⟩

/-- The loop `for i, x0_ in enumerate(x0):` of the batch branch: for each
index prepare the solver call (stopping with the raised exception if a
subscription fails), run the solver, and append `res.x`, `res.success`,
`res.message` while folding the observed objective values into
`self.min_obj`. -/
def batchLoop (solver : Solver) (prep : Nat → Except PyErr SolverCall) :
    List Nat → LoopState → LoopState × Option PyErr
  | [], st => (st, Option.none)
  | i :: rest, st =>
    match prep i with
    | .error e => (st, some e)
    | .ok c =>
      let out := solver c
      batchLoop solver prep rest
        ⟨st.calls ++ [c], st.allRes ++ [out.x], st.suc ++ [out.success],
         st.msg ++ [out.message], runEvals st.minObj out.evals⟩

/-- The outcome of one `Minimizer.minimize` call: the returned triple (or
the raised exception), the trace of external solver invocations, and the
final value of `self.min_obj`. -/
structure MinRun where
  result : Except PyErr (Tensor × List Bool × List String)
  calls : List SolverCall
  minObj : WithTop ℚ

/-- The statement `if bounds is None: bounds = [None] * b`. -/
def normBounds (b : Nat) (v : PyVal) : PyVal :=
  if pyIsNone v then .list (List.replicate b .none) else v

/-- The statement `if args == () or args == [] or args is None: args = [None] * b`. -/
def normArgs (b : Nat) (v : PyVal) : PyVal :=
  if pyIsEmptyTuple v || pyIsEmptyList v || pyIsNone v then
    .list (List.replicate b .none)
  else v

/-- The statement `if constraints == (): constraints = [()] * b`. -/
def normCons (b : Nat) (v : PyVal) : PyVal :=
  if pyIsEmptyTuple v then .list (List.replicate b (.tuple [])) else v

/-- The statement `if tol is None: tol = [None] * b`. -/
def normTol (b : Nat) (v : PyVal) : PyVal :=
  if pyIsNone v then .list (List.replicate b .none) else v

/-- The batch branch of `Minimizer.minimize` (`if batchwise:`): read
`b = x0.shape[0]`, flatten `x0` to `(b, -1)` for trust-constr, replicate
the per-instance defaults of `bounds` / `args` / `constraints` / `tol`,
run the loop over the batch instances, stack the per-instance solutions
with `np.array` and reshape the stack back to `x0`'s original shape. -/
def runBatch (solver : Solver) (x0 : Tensor) (cfg : Config) : MinRun :=
  match x0.shape with
  | [] => ⟨.error .indexError, [], ⊤⟩
  | b :: _rest =>
    match (if pyIsStr cfg.method "trust-constr" then reshapeInfer x0 b
           else .ok x0) with
    | .error e => ⟨.error e, [], ⊤⟩
    | .ok x0b =>
      match batchLoop solver
          (prepareCall x0b (normArgs b cfg.args) (normBounds b cfg.bounds)
            (normCons b cfg.constraints) (normTol b cfg.tol) cfg.method
            cfg.jac cfg.hess cfg.options cfg.callback)
          (List.range b) ⟨[], [], [], [], ⊤⟩ with
      | (st, some e) => ⟨.error e, st.calls, st.minObj⟩
      | (st, Option.none) =>
        match npStack st.allRes with
        | .error e => ⟨.error e, st.calls, st.minObj⟩
        | .ok stacked =>
          match reshapeTo stacked x0.shape with
          | .error e => ⟨.error e, st.calls, st.minObj⟩
          | .ok ans => ⟨.ok (ans, st.suc, st.msg), st.calls, st.minObj⟩

/-- The single solver invocation of the non-batch branch: `x0` is
flattened to one dimension when the method is trust-constr (the
`x0 = x0.reshape(-1)` statement), and `args` / `bounds` / `constraints` /
`tol` / `options` / `callback` are passed through exactly as configured. -/
def singleCall (x0 : Tensor) (cfg : Config) : SolverCall :=
  ⟨(if pyIsStr cfg.method "trust-constr" then reshapeFlat x0 else x0),
   cfg.args, cfg.method, cfg.jac, cfg.hess, cfg.bounds, cfg.options,
   cfg.constraints, cfg.tol, cfg.callback⟩

/-- The non-batch branch of `Minimizer.minimize` (`else:`): one solver
invocation, then `res.x` is reshaped to `x0`'s original shape and the
single success flag and message are wrapped in singleton lists. -/
def runSingle (solver : Solver) (x0 : Tensor) (cfg : Config) : MinRun :=
  match reshapeTo ⟨[(solver (singleCall x0 cfg)).x.length],
      (solver (singleCall x0 cfg)).x⟩ x0.shape with
  | .error e =>
    ⟨.error e, [singleCall x0 cfg],
     runEvals ⊤ (solver (singleCall x0 cfg)).evals⟩
  | .ok ans =>
    ⟨.ok (ans, [(solver (singleCall x0 cfg)).success],
       [(solver (singleCall x0 cfg)).message]), [singleCall x0 cfg],
     runEvals ⊤ (solver (singleCall x0 cfg)).evals⟩

/-- Lines 110–167 of `Minimizer.minimize`: reset `self.min_obj` to
`+infinity`, then dispatch on the truthiness of `batchwise`. -/
def runMinimize (solver : Solver) (x0 : Tensor) (cfg : Config) : MinRun :=
  if pyTruthy cfg.batchwise then runBatch solver x0 cfg
  else runSingle solver x0 cfg

/-- The entry point `Minimizer.minimize`: process the keyword configuration, then dispatch.
`s0` is the value of `self.min_obj` on entry (it is an instance field, so
it survives from previous calls and is only reset once the configuration
has been read successfully). -/
def Minimizer.minimize (solver : Solver) (s0 : WithTop ℚ) (x0 : Tensor)
    (kwargs : List (String × PyVal)) : MinRun :=
  match parseKwargs kwargs with
  | .error e => ⟨.error e, [], s0⟩
  | .ok cfg => runMinimize solver x0 cfg

/-- A solver that returns its initial point unchanged, converges, and
observes no objective value. -/
def idSolver : Solver := fun c => ⟨c.x0.data, true, "ok", []⟩

example :
    (Minimizer.minimize idSolver ⊤ ⟨[2], [1, 2]⟩
      [("args", .tuple []), ("batchwise", .bool false)]).result =
      .ok (⟨[2], [1, 2]⟩, [true], ["ok"]) := rfl

example :
    (Minimizer.minimize idSolver ⊤ ⟨[2, 1], [3, 4]⟩
      [("args", .tuple []), ("batchwise", .bool true)]).result =
      .ok (⟨[2, 1], [3, 4]⟩, [true, true], ["ok", "ok"]) := rfl

/-! ### Helper lemmas -/

theorem reshapeTo_ok_shape {t : Tensor} {s : List Nat} {r : Tensor}
    (h : reshapeTo t s = .ok r) : r.shape = s := by
  rw [reshapeTo] at h
  by_cases hc : t.data.length = s.prod
  · rw [if_pos hc] at h
    injection h with h'
    rw [← h']
  · rw [if_neg hc] at h
    cases h

theorem scanl_head {α β : Type} (f : α → β → α) (a : α) (ys : List β) :
    (List.scanl f a ys).head? = some a := by
  cases ys <;> rfl

/-- Each `min(y, self.min_obj)` update can only decrease `self.min_obj`,
so the trace of tracker states is non-increasing. -/
theorem scanl_objUpdate_chain (a : WithTop ℚ) (ys : List ℚ) :
    List.Chain' (fun x y => y ≤ x) (List.scanl objUpdate a ys) := by
  induction ys generalizing a with
  | nil => exact List.chain'_singleton a
  | cons y ys ih =>
    rw [List.scanl_cons]
    rw [show ([a] ++ List.scanl objUpdate (objUpdate a y) ys) =
      a :: List.scanl objUpdate (objUpdate a y) ys from rfl]
    rw [List.chain'_cons']
    constructor
    · intro z hz
      rw [scanl_head, Option.mem_def, Option.some.injEq] at hz
      rw [← hz]
      exact min_le_right _ _
    · exact ih _

theorem foldl_runEvals_eq (solver : Solver) (cs : List SolverCall)
    (a : WithTop ℚ) :
    cs.foldl (fun s c => runEvals s (solver c).evals) a =
      runEvals a ((cs.map (fun c => (solver c).evals)).flatten) := by
  induction cs generalizing a with
  | nil => rfl
  | cons c cs ih =>
    rw [List.foldl_cons, ih, List.map_cons, List.flatten_cons]
    simp only [runEvals, List.foldl_append]

theorem prepareCall_ok_dest {x0b : Tensor} {argsN boundsN consN tolN : PyVal}
    {method : PyVal} {jacS hessS : Bool} {options callback : PyVal}
    {i : Nat} {c : SolverCall}
    (h : prepareCall x0b argsN boundsN consN tolN method jacS hessS options
      callback i = .ok c) :
    getItem argsN i = .ok c.args ∧ getItem boundsN i = .ok c.bounds ∧
    getItem consN i = .ok c.constraints ∧ getItem tolN i = .ok c.tol ∧
    c.x0 = instSlice x0b i ∧ c.method = method ∧ c.jacSupplied = jacS ∧
    c.hessSupplied = hessS ∧ c.options = options ∧ c.callback = callback := by
  unfold prepareCall at h
  split at h
  · cases h
  next ai hai =>
    split at h
    · cases h
    next bi hbi =>
      split at h
      · cases h
      next ci hci =>
        split at h
        · cases h
        next ti hti =>
          cases h
          exact ⟨hai, hbi, hci, hti, rfl, rfl, rfl, rfl, rfl, rfl⟩

/-- The specification of the batch loop: it extends the accumulators by
one entry per successfully prepared call, in batch order, folds the
observed objective values into the tracker, and when it finishes without
an exception every index's preparation succeeded positionally. -/
theorem batchLoop_spec (solver : Solver)
    (prep : Nat → Except PyErr SolverCall) :
    ∀ (l : List Nat) (st : LoopState),
      ∃ cs : List SolverCall,
        (batchLoop solver prep l st).1.calls = st.calls ++ cs ∧
        (batchLoop solver prep l st).1.allRes =
          st.allRes ++ cs.map (fun c => (solver c).x) ∧
        (batchLoop solver prep l st).1.suc =
          st.suc ++ cs.map (fun c => (solver c).success) ∧
        (batchLoop solver prep l st).1.msg =
          st.msg ++ cs.map (fun c => (solver c).message) ∧
        (batchLoop solver prep l st).1.minObj =
          cs.foldl (fun s c => runEvals s (solver c).evals) st.minObj ∧
        (∀ c ∈ cs, ∃ i ∈ l, prep i = .ok c) ∧
        ((batchLoop solver prep l st).2 = Option.none →
          l.map prep = cs.map Except.ok) := by
  intro l
  induction l with
  | nil =>
    intro st
    exact ⟨[], by simp [batchLoop]⟩
  | cons i rest ih =>
    intro st
    cases hp : prep i with
    | error e =>
      refine ⟨[], ?_⟩
      simp [batchLoop, hp]
    | ok c =>
      obtain ⟨cs', h1, h2, h3, h4, h5, h6, h7⟩ :=
        ih ⟨st.calls ++ [c], st.allRes ++ [(solver c).x],
            st.suc ++ [(solver c).success], st.msg ++ [(solver c).message],
            runEvals st.minObj (solver c).evals⟩
      refine ⟨c :: cs', ?_, ?_, ?_, ?_, ?_, ?_, ?_⟩
      · simp [batchLoop, hp, h1]
      · simp [batchLoop, hp, h2]
      · simp [batchLoop, hp, h3]
      · simp [batchLoop, hp, h4]
      · simp [batchLoop, hp, h5]
      · intro c' hc'
        rcases List.mem_cons.mp hc' with hc' | hc'
        · exact ⟨i, List.mem_cons_self i rest, by rw [hc']; exact hp⟩
        · obtain ⟨j, hj, hpj⟩ := h6 c' hc'
          exact ⟨j, List.mem_cons_of_mem i hj, hpj⟩
      · intro hnone
        have : (batchLoop solver prep (i :: rest) st).2 =
            (batchLoop solver prep rest
              ⟨st.calls ++ [c], st.allRes ++ [(solver c).x],
               st.suc ++ [(solver c).success],
               st.msg ++ [(solver c).message],
               runEvals st.minObj (solver c).evals⟩).2 := by
          simp [batchLoop, hp]
        rw [this] at hnone
        rw [List.map_cons, List.map_cons, h7 hnone, hp]

/-- Inversion of a successful keyword parse: every field of the resulting
configuration in terms of the keyword lookups. -/
theorem parseKwargs_ok_dest {kwargs : List (String × PyVal)} {cfg : Config}
    (h : parseKwargs kwargs = .ok cfg) :
    kwargs.lookup "args" = some cfg.args ∧
    kwargs.lookup "hessp" = Option.none ∧
    kwargs.lookup "batchwise" = some cfg.batchwise ∧
    cfg.method = (kwargs.lookup "method").getD .none ∧
    cfg.jac = jacFlag kwargs cfg.method ∧
    cfg.hess = hessFlag kwargs cfg.method ∧
    cfg.bounds = (kwargs.lookup "bounds").getD .none ∧
    cfg.options = (kwargs.lookup "options").getD .none ∧
    cfg.constraints = (kwargs.lookup "constraints").getD (.tuple []) ∧
    cfg.tol = (kwargs.lookup "tol").getD .none ∧
    cfg.callback = (kwargs.lookup "callback").getD .none := by
  rw [parseKwargs] at h
  split at h
  · cases h
  next args0 hargs =>
    split at h
    · cases h
    next hhessp =>
      split at h
      · cases h
      next bw hbw =>
        cases h
        exact ⟨hargs, hhessp, hbw, rfl, rfl, rfl, rfl, rfl, rfl, rfl, rfl⟩

/-- The non-batch branch always makes exactly one solver call. -/
theorem runSingle_calls (solver : Solver) (x0 : Tensor) (cfg : Config) :
    (runSingle solver x0 cfg).calls = [singleCall x0 cfg] := by
  rw [runSingle]
  split <;> rfl

/-- The non-batch branch's final tracker state folds the observed
objective values starting from `+infinity`. -/
theorem runSingle_minObj (solver : Solver) (x0 : Tensor) (cfg : Config) :
    (runSingle solver x0 cfg).minObj =
      runEvals ⊤ (solver (singleCall x0 cfg)).evals := by
  rw [runSingle]
  split <;> rfl

/-- Inversion of a normally returning non-batch run. -/
theorem runSingle_ok_dest {solver : Solver} {x0 : Tensor} {cfg : Config}
    {ans : Tensor} {suc : List Bool} {msg : List String}
    (h : (runSingle solver x0 cfg).result = .ok (ans, suc, msg)) :
    ans.shape = x0.shape ∧ suc = [(solver (singleCall x0 cfg)).success] ∧
    msg = [(solver (singleCall x0 cfg)).message] := by
  rw [runSingle] at h
  split at h
  · cases h
  next ans2 hresh =>
    cases h
    exact ⟨reshapeTo_ok_shape hresh, rfl, rfl⟩

/-- Inversion of a normally returning batch run: the batch size came from
the leading dimension of `x0`, every batch index's call preparation
succeeded positionally on the normalized configuration, the results are
the per-call solver outputs in batch order, and the answer is reshaped to
`x0`'s shape. -/
theorem runBatch_ok_full {solver : Solver} {x0 : Tensor} {cfg : Config}
    {ans : Tensor} {suc : List Bool} {msg : List String}
    (h : (runBatch solver x0 cfg).result = .ok (ans, suc, msg)) :
    ∃ (b : Nat) (rest : List Nat) (x0b : Tensor) (cs : List SolverCall),
      x0.shape = b :: rest ∧
      (if pyIsStr cfg.method "trust-constr" then reshapeInfer x0 b
       else .ok x0) = .ok x0b ∧
      (List.range b).map (prepareCall x0b (normArgs b cfg.args)
        (normBounds b cfg.bounds) (normCons b cfg.constraints)
        (normTol b cfg.tol) cfg.method cfg.jac cfg.hess cfg.options
        cfg.callback) = cs.map Except.ok ∧
      runBatch solver x0 cfg =
        ⟨.ok (ans, suc, msg), cs,
         cs.foldl (fun s c => runEvals s (solver c).evals) ⊤⟩ ∧
      suc = cs.map (fun c => (solver c).success) ∧
      msg = cs.map (fun c => (solver c).message) ∧
      ans.shape = x0.shape := by
  rw [runBatch] at h
  split at h
  · cases h
  next b rest hshape =>
    split at h
    · cases h
    next x0b hx0b =>
      split at h
      next st e hloop => cases h
      next st hloop =>
        split at h
        · cases h
        next stacked hstack =>
          split at h
          · cases h
          next ans2 hresh =>
            cases h
            obtain ⟨cs, h1, h2, h3, h4, h5, h6, h7⟩ :=
              batchLoop_spec solver
                (prepareCall x0b (normArgs b cfg.args)
                  (normBounds b cfg.bounds) (normCons b cfg.constraints)
                  (normTol b cfg.tol) cfg.method cfg.jac cfg.hess
                  cfg.options cfg.callback)
                (List.range b) ⟨[], [], [], [], ⊤⟩
            rw [hloop] at h1 h2 h3 h4 h5 h7
            simp only [List.nil_append] at h1 h2 h3 h4 h5
            refine ⟨b, rest, x0b, cs, hshape, hx0b, h7 rfl, ?_, h3, h4,
              reshapeTo_ok_shape hresh⟩
            rw [hshape] at hresh
            simp only [runBatch, hshape, hx0b, hloop, hstack, hresh, h1,
              h3, h4, h5]

/-! ### The claims -/

/-- C9: invoking the Jacobian or Hessian adapter callbacks leaves the
minimum tracker `min_obj` unchanged, for every input vector and extra
arguments; only the value callback `_obj_npy` mutates it, replacing it by
the minimum of the current value and the newly observed objective value. -/
theorem C9_adapters_preserve_tracker (J : List ℚ → PyVal → List ℚ)
    (H : List ℚ → PyVal → List (List ℚ)) (f : List ℚ → PyVal → ℚ)
    (s : MinimizerState) (x : List ℚ) (a : PyVal) :
    (Minimizer.jac_npy J s x a).1.min_obj = s.min_obj ∧
    (Minimizer.hess_npy H s x a).1.min_obj = s.min_obj ∧
    (Minimizer.obj_npy f s x a).1.min_obj = min (↑(f x a)) s.min_obj :=
  ⟨rfl, rfl, rfl⟩

/-- C4: when the configuration explicitly passes a null `jac`, no gradient
callback is supplied regardless of method; otherwise a gradient callback
is supplied if and only if the method is one of the fixed gradient-capable
set CG, BFGS, Newton-CG, L-BFGS-B, TNC, SLSQP, dogleg, trust-ncg,
trust-krylov, trust-exact, trust-constr. -/
theorem C4_grad_callback (kwargs : List (String × PyVal)) (cfg : Config)
    (h : parseKwargs kwargs = .ok cfg) :
    ((∃ v, kwargs.lookup "jac" = some v ∧ pyIsNone v = true) →
      cfg.jac = false) ∧
    ((∀ v, kwargs.lookup "jac" = some v → pyIsNone v = false) →
      (cfg.jac = true ↔
        methodIn cfg.method
          ["CG", "BFGS", "Newton-CG", "L-BFGS-B", "TNC", "SLSQP", "dogleg",
           "trust-ncg", "trust-krylov", "trust-exact", "trust-constr"] =
          true)) := by
  obtain ⟨-, -, -, -, hjac, -, -, -, -, -, -⟩ := parseKwargs_ok_dest h
  constructor
  · rintro ⟨v, hv, hnone⟩
    rw [hjac, jacFlag, hv]
    simp [hnone]
  · intro hall
    rw [hjac, jacFlag]
    cases hj : kwargs.lookup "jac" with
    | none => simp [gradMethods]
    | some v => simp [hall v hj, gradMethods]

theorem C4_grad_callback_witness :
    parseKwargs [("args", .tuple []), ("batchwise", .bool false),
        ("jac", .none), ("method", .str "BFGS")] =
      .ok ⟨.tuple [], .str "BFGS", false, false, .none, .none, .tuple [],
           .none, .none, .bool false⟩ ∧
    (((∃ v, List.lookup "jac" [("args", PyVal.tuple []),
          ("batchwise", PyVal.bool false), ("jac", PyVal.none),
          ("method", PyVal.str "BFGS")] = some v ∧ pyIsNone v = true) →
        (Config.mk (.tuple []) (.str "BFGS") false false .none .none
          (.tuple []) .none .none (.bool false)).jac = false) ∧
     ((∀ v, List.lookup "jac" [("args", PyVal.tuple []),
          ("batchwise", PyVal.bool false), ("jac", PyVal.none),
          ("method", PyVal.str "BFGS")] = some v → pyIsNone v = false) →
       ((Config.mk (.tuple []) (.str "BFGS") false false .none .none
          (.tuple []) .none .none (.bool false)).jac = true ↔
        methodIn (Config.mk (.tuple []) (.str "BFGS") false false .none
          .none (.tuple []) .none .none (.bool false)).method
          ["CG", "BFGS", "Newton-CG", "L-BFGS-B", "TNC", "SLSQP", "dogleg",
           "trust-ncg", "trust-krylov", "trust-exact", "trust-constr"] =
          true))) :=
  ⟨rfl, C4_grad_callback _ _ rfl⟩

/-- C5: when the configuration explicitly passes a null `hess`, no Hessian
callback is supplied; otherwise a Hessian callback is supplied if and only
if the method is one of the fixed Hessian-capable set Newton-CG, dogleg,
trust-ncg, trust-krylov, trust-exact, trust-constr, which is a strict
subset of the gradient-capable set. -/
theorem C5_hess_callback (kwargs : List (String × PyVal)) (cfg : Config)
    (h : parseKwargs kwargs = .ok cfg) :
    ((∃ v, kwargs.lookup "hess" = some v ∧ pyIsNone v = true) →
      cfg.hess = false) ∧
    ((∀ v, kwargs.lookup "hess" = some v → pyIsNone v = false) →
      (cfg.hess = true ↔
        methodIn cfg.method
          ["Newton-CG", "dogleg", "trust-ncg", "trust-krylov",
           "trust-exact", "trust-constr"] = true)) ∧
    (∀ m ∈ hessMethods, m ∈ gradMethods) ∧
    (∃ m ∈ gradMethods, m ∉ hessMethods) := by
  obtain ⟨-, -, -, -, -, hhess, -, -, -, -, -⟩ := parseKwargs_ok_dest h
  refine ⟨?_, ?_, by decide, by decide⟩
  · rintro ⟨v, hv, hnone⟩
    rw [hhess, hessFlag, hv]
    simp [hnone]
  · intro hall
    rw [hhess, hessFlag]
    cases hj : kwargs.lookup "hess" with
    | none => simp [hessMethods]
    | some v => simp [hall v hj, hessMethods]

theorem C5_hess_callback_witness :
    parseKwargs [("args", .tuple []), ("batchwise", .bool false),
        ("method", .str "Newton-CG")] =
      .ok ⟨.tuple [], .str "Newton-CG", true, true, .none, .none,
           .tuple [], .none, .none, .bool false⟩ ∧
    (((∃ v, List.lookup "hess" [("args", PyVal.tuple []),
          ("batchwise", PyVal.bool false),
          ("method", PyVal.str "Newton-CG")] = some v ∧
          pyIsNone v = true) →
        (Config.mk (.tuple []) (.str "Newton-CG") true true .none .none
          (.tuple []) .none .none (.bool false)).hess = false) ∧
     ((∀ v, List.lookup "hess" [("args", PyVal.tuple []),
          ("batchwise", PyVal.bool false),
          ("method", PyVal.str "Newton-CG")] = some v →
          pyIsNone v = false) →
       ((Config.mk (.tuple []) (.str "Newton-CG") true true .none .none
          (.tuple []) .none .none (.bool false)).hess = true ↔
        methodIn (Config.mk (.tuple []) (.str "Newton-CG") true true .none
          .none (.tuple []) .none .none (.bool false)).method
          ["Newton-CG", "dogleg", "trust-ncg", "trust-krylov",
           "trust-exact", "trust-constr"] = true)) ∧
     (∀ m ∈ hessMethods, m ∈ gradMethods) ∧
     (∃ m ∈ gradMethods, m ∉ hessMethods)) :=
  ⟨rfl, C5_hess_callback _ _ rfl⟩

/-- C3 counterexample: a configuration in which `hessp` is present but
`args` is absent raises `KeyError('args')`, not the unsupported-capability
`NotImplementedError` — the `args` lookup precedes the `hessp` check.  (No
solver call is made either way.) -/
theorem C3_counterexample :
    (Minimizer.minimize idSolver ⊤ ⟨[2], [1, 2]⟩
        [("hessp", PyVal.none)]).result = .error (.keyError "args") ∧
    (Minimizer.minimize idSolver ⊤ ⟨[2], [1, 2]⟩
        [("hessp", PyVal.none)]).calls = [] :=
  ⟨rfl, rfl⟩

/-- C3 amended: in every configuration in which `args` is present and
`hessp` is present (with any value), `minimize` raises
`NotImplementedError` and no call to the external solver is made (and
`self.min_obj` is not even reset). -/
theorem C3_amended (solver : Solver) (s0 : WithTop ℚ) (x0 : Tensor)
    (kwargs : List (String × PyVal)) (v w : PyVal)
    (ha : kwargs.lookup "args" = some v)
    (hh : kwargs.lookup "hessp" = some w) :
    (Minimizer.minimize solver s0 x0 kwargs).result =
      .error .notImplementedError ∧
    (Minimizer.minimize solver s0 x0 kwargs).calls = [] ∧
    (Minimizer.minimize solver s0 x0 kwargs).minObj = s0 := by
  have hp : parseKwargs kwargs = .error .notImplementedError := by
    rw [parseKwargs, ha, hh]
  rw [Minimizer.minimize, hp]
  exact ⟨rfl, rfl, rfl⟩

theorem C3_amended_witness :
    List.lookup "args" [("args", PyVal.tuple []), ("hessp", PyVal.bool true)] =
      some (.tuple []) ∧
    List.lookup "hessp" [("args", PyVal.tuple []), ("hessp", PyVal.bool true)] =
      some (.bool true) ∧
    ((Minimizer.minimize idSolver ⊤ ⟨[2], [1, 2]⟩
        [("args", PyVal.tuple []), ("hessp", PyVal.bool true)]).result =
      .error .notImplementedError ∧
     (Minimizer.minimize idSolver ⊤ ⟨[2], [1, 2]⟩
        [("args", PyVal.tuple []), ("hessp", PyVal.bool true)]).calls = [] ∧
     (Minimizer.minimize idSolver ⊤ ⟨[2], [1, 2]⟩
        [("args", PyVal.tuple []), ("hessp", PyVal.bool true)]).minObj = ⊤) :=
  ⟨rfl, rfl, C3_amended idSolver ⊤ ⟨[2], [1, 2]⟩ _ _ _ rfl rfl⟩

/-- C10 counterexample: with `args` present, `batchwise` omitted and
`hessp` present, the call raises `NotImplementedError`, not a key-lookup
error — so omitting `batchwise` does not fail with a key-lookup error
before capability resolution; the `hessp` capability check runs first. -/
theorem C10_counterexample :
    (Minimizer.minimize idSolver ⊤ ⟨[2], [1, 2]⟩
        [("args", PyVal.tuple []), ("hessp", PyVal.bool true)]).result =
      .error .notImplementedError ∧
    (Minimizer.minimize idSolver ⊤ ⟨[2], [1, 2]⟩
        [("args", PyVal.tuple []), ("hessp", PyVal.bool true)]).calls = [] :=
  ⟨rfl, rfl⟩

/-- C10 amended: omitting `args` fails with `KeyError('args')` before
anything else and before any solve; omitting `batchwise` (with `args`
present and `hessp` absent) fails with `KeyError('batchwise')` before any
solve but only after capability resolution, the `hessp` check included;
and every other recognized option (`method`, `jac`, `hess`, `bounds`,
`options`, `constraints`, `tol`, `callback`) has a default when omitted:
a configuration carrying only `args` and `batchwise` parses successfully
with the default values. -/
theorem C10_amended (solver : Solver) (s0 : WithTop ℚ) (x0 : Tensor)
    (kwargs : List (String × PyVal)) :
    (kwargs.lookup "args" = Option.none →
      (Minimizer.minimize solver s0 x0 kwargs).result =
        .error (.keyError "args") ∧
      (Minimizer.minimize solver s0 x0 kwargs).calls = []) ∧
    (∀ v, kwargs.lookup "args" = some v →
      kwargs.lookup "hessp" = Option.none →
      kwargs.lookup "batchwise" = Option.none →
      (Minimizer.minimize solver s0 x0 kwargs).result =
        .error (.keyError "batchwise") ∧
      (Minimizer.minimize solver s0 x0 kwargs).calls = []) ∧
    (∀ a bw, parseKwargs [("args", a), ("batchwise", bw)] =
      .ok ⟨a, .none, false, false, .none, .none, .tuple [], .none, .none,
           bw⟩) := by
  refine ⟨?_, ?_, ?_⟩
  · intro ha
    have hp : parseKwargs kwargs = .error (.keyError "args") := by
      rw [parseKwargs, ha]
    rw [Minimizer.minimize, hp]
    exact ⟨rfl, rfl⟩
  · intro v ha hh hb
    have hp : parseKwargs kwargs = .error (.keyError "batchwise") := by
      rw [parseKwargs, ha, hh, hb]
    rw [Minimizer.minimize, hp]
    exact ⟨rfl, rfl⟩
  · intro a bw
    rfl

theorem C10_amended_witness :
    List.lookup "args" ([] : List (String × PyVal)) = Option.none ∧
    ((Minimizer.minimize idSolver ⊤ ⟨[2], [1, 2]⟩ []).result =
      .error (.keyError "args") ∧
     (Minimizer.minimize idSolver ⊤ ⟨[2], [1, 2]⟩ []).calls = []) :=
  ⟨rfl, (C10_amended idSolver ⊤ ⟨[2], [1, 2]⟩ []).1 rfl⟩

/-- C2: for every call to `minimize` that returns normally
(single-instance or batched, any method, trust-constr's internal
flattening included), the returned solution tensor has exactly the shape
of the input `x0`. -/
theorem C2_solution_shape (solver : Solver) (s0 : WithTop ℚ) (x0 : Tensor)
    (kwargs : List (String × PyVal)) (ans : Tensor) (suc : List Bool)
    (msg : List String)
    (h : (Minimizer.minimize solver s0 x0 kwargs).result =
      .ok (ans, suc, msg)) :
    ans.shape = x0.shape := by
  rw [Minimizer.minimize] at h
  split at h
  · cases h
  next cfg hcfg =>
    rw [runMinimize] at h
    by_cases hb : pyTruthy cfg.batchwise
    · rw [if_pos hb] at h
      obtain ⟨b, rest, x0b, cs, hshape, hx0b, hmap, hrun, hsuc, hmsg,
        hansshape⟩ := runBatch_ok_full h
      exact hansshape
    · rw [if_neg hb] at h
      exact (runSingle_ok_dest h).1

theorem C2_solution_shape_witness :
    (Minimizer.minimize idSolver ⊤ ⟨[2, 1], [3, 4]⟩
        [("args", .tuple []), ("batchwise", .bool true)]).result =
      .ok (⟨[2, 1], [3, 4]⟩, [true, true], ["ok", "ok"]) ∧
    (⟨[2, 1], [3, 4]⟩ : Tensor).shape = (⟨[2, 1], [3, 4]⟩ : Tensor).shape :=
  ⟨rfl, C2_solution_shape idSolver ⊤ ⟨[2, 1], [3, 4]⟩
    [("args", .tuple []), ("batchwise", .bool true)] _ _ _ rfl⟩

/-- C6: for every call that returns normally, the success and message
sequences have equal length, that length is `B` (the leading dimension of
`x0`) when `batchwise` is truthy and `1` otherwise, and both sequences
list the per-call solver outputs in batch order. -/
theorem C6_success_message_lengths (solver : Solver) (s0 : WithTop ℚ)
    (x0 : Tensor) (kwargs : List (String × PyVal)) (cfg : Config)
    (ans : Tensor) (suc : List Bool) (msg : List String)
    (hp : parseKwargs kwargs = .ok cfg)
    (h : (Minimizer.minimize solver s0 x0 kwargs).result =
      .ok (ans, suc, msg)) :
    suc.length = msg.length ∧
    suc.length = (if pyTruthy cfg.batchwise then x0.shape.headD 0 else 1) ∧
    suc = (Minimizer.minimize solver s0 x0 kwargs).calls.map
      (fun c => (solver c).success) ∧
    msg = (Minimizer.minimize solver s0 x0 kwargs).calls.map
      (fun c => (solver c).message) := by
  have hmm : Minimizer.minimize solver s0 x0 kwargs =
      runMinimize solver x0 cfg := by
    rw [Minimizer.minimize, hp]
  by_cases hb : pyTruthy cfg.batchwise
  · rw [hmm, runMinimize, if_pos hb] at h
    obtain ⟨b, rest, x0b, cs, hshape, hx0b, hmap, hrun, hsuc, hmsg, -⟩ :=
      runBatch_ok_full h
    have hlen : b = cs.length := by
      have := congrArg List.length hmap
      simpa using this
    have hcalls : (Minimizer.minimize solver s0 x0 kwargs).calls = cs := by
      rw [hmm, runMinimize, if_pos hb, hrun]
    refine ⟨?_, ?_, ?_, ?_⟩
    · rw [hsuc, hmsg]
      simp
    · rw [if_pos hb, hsuc, hshape]
      simp [hlen]
    · rw [hcalls, hsuc]
    · rw [hcalls, hmsg]
  · have hone : Minimizer.minimize solver s0 x0 kwargs =
        runSingle solver x0 cfg := by
      rw [hmm, runMinimize, if_neg hb]
    rw [hone] at h
    obtain ⟨-, hsuc, hmsg⟩ := runSingle_ok_dest h
    refine ⟨?_, ?_, ?_, ?_⟩
    · rw [hsuc, hmsg]
      rfl
    · rw [if_neg hb, hsuc]
      rfl
    · rw [hone, runSingle_calls, hsuc]
      rfl
    · rw [hone, runSingle_calls, hmsg]
      rfl

theorem C6_success_message_lengths_witness :
    parseKwargs [("args", .tuple []), ("batchwise", .bool true)] =
      .ok ⟨.tuple [], .none, false, false, .none, .none, .tuple [], .none,
           .none, .bool true⟩ ∧
    (Minimizer.minimize idSolver ⊤ ⟨[2, 1], [3, 4]⟩
        [("args", .tuple []), ("batchwise", .bool true)]).result =
      .ok (⟨[2, 1], [3, 4]⟩, [true, true], ["ok", "ok"]) ∧
    ([true, true].length = ["ok", "ok"].length ∧
     [true, true].length =
       (if pyTruthy (Config.mk (.tuple []) .none false false .none .none
           (.tuple []) .none .none (.bool true)).batchwise then
          (⟨[2, 1], [3, 4]⟩ : Tensor).shape.headD 0
        else 1) ∧
     [true, true] = (Minimizer.minimize idSolver ⊤ ⟨[2, 1], [3, 4]⟩
        [("args", .tuple []), ("batchwise", .bool true)]).calls.map
          (fun c => (idSolver c).success) ∧
     ["ok", "ok"] = (Minimizer.minimize idSolver ⊤ ⟨[2, 1], [3, 4]⟩
        [("args", .tuple []), ("batchwise", .bool true)]).calls.map
          (fun c => (idSolver c).message)) :=
  ⟨rfl, rfl, C6_success_message_lengths idSolver ⊤ ⟨[2, 1], [3, 4]⟩
    [("args", .tuple []), ("batchwise", .bool true)] _ _ _ _ rfl rfl⟩

/-- C7 counterexample: a non-batched call with `method='trust-constr'`
and `x0` of shape `(2, 1)` invokes the solver on a pre-flattened `x0` of
shape `(2,)` — pre-dispatch flattening does occur on the single-instance
path. -/
theorem C7_counterexample :
    (Minimizer.minimize idSolver ⊤ ⟨[2, 1], [1, 2]⟩
        [("args", .tuple []), ("batchwise", .bool false),
         ("method", .str "trust-constr")]).calls =
      [⟨⟨[2], [1, 2]⟩, .tuple [], .str "trust-constr", true, true, .none,
        .none, .tuple [], .none, .none⟩] ∧
    (⟨[2], [1, 2]⟩ : Tensor).shape ≠ (⟨[2, 1], [1, 2]⟩ : Tensor).shape :=
  ⟨rfl, by decide⟩

/-- C7 amended: every non-batched call performs exactly one solver
invocation, with `args` / `bounds` / `constraints` / `tol` (and `options`,
`callback`) passed through exactly as configured — no normalization — and
with `x0` passed unflattened unless the method is trust-constr, in which
case `x0` is flattened to one dimension before dispatch. -/
theorem C7_single_path (solver : Solver) (s0 : WithTop ℚ) (x0 : Tensor)
    (kwargs : List (String × PyVal)) (cfg : Config)
    (hp : parseKwargs kwargs = .ok cfg)
    (hb : pyTruthy cfg.batchwise = false) :
    (Minimizer.minimize solver s0 x0 kwargs).calls =
      [⟨(if pyIsStr cfg.method "trust-constr" then reshapeFlat x0 else x0),
        cfg.args, cfg.method, cfg.jac, cfg.hess, cfg.bounds, cfg.options,
        cfg.constraints, cfg.tol, cfg.callback⟩] := by
  have hone : Minimizer.minimize solver s0 x0 kwargs =
      runSingle solver x0 cfg := by
    rw [Minimizer.minimize, hp]
    show runMinimize solver x0 cfg = runSingle solver x0 cfg
    rw [runMinimize, hb]
    rfl
  rw [hone, runSingle_calls]
  rfl

theorem C7_single_path_witness :
    parseKwargs [("args", .tuple []), ("batchwise", .bool false),
        ("method", .str "trust-constr")] =
      .ok ⟨.tuple [], .str "trust-constr", true, true, .none, .none,
           .tuple [], .none, .none, .bool false⟩ ∧
    pyTruthy (PyVal.bool false) = false ∧
    (Minimizer.minimize idSolver ⊤ ⟨[2, 1], [1, 2]⟩
        [("args", .tuple []), ("batchwise", .bool false),
         ("method", .str "trust-constr")]).calls =
      [⟨(if pyIsStr (PyVal.str "trust-constr") "trust-constr" then
           reshapeFlat ⟨[2, 1], [1, 2]⟩
         else ⟨[2, 1], [1, 2]⟩), .tuple [], .str "trust-constr", true,
        true, .none, .none, .tuple [], .none, .none⟩] :=
  ⟨rfl, rfl, C7_single_path idSolver ⊤ ⟨[2, 1], [1, 2]⟩
    [("args", .tuple []), ("batchwise", .bool false),
     ("method", .str "trust-constr")] _ rfl rfl⟩

/-- C1 counterexample: in a batched call with `tol` given as the single
numeric value `1`, `tol` is not replicated to the batch instances —
instead the batch loop subscripts the number itself, raising `TypeError`
before any solver call, so instance 0's solve is never invoked. -/
theorem C1_counterexample :
    (Minimizer.minimize idSolver ⊤ ⟨[1, 1], [5]⟩
        [("args", PyVal.tuple []), ("batchwise", PyVal.bool true),
         ("tol", PyVal.num 1)]).result = .error .typeError ∧
    (Minimizer.minimize idSolver ⊤ ⟨[1, 1], [5]⟩
        [("args", PyVal.tuple []), ("batchwise", PyVal.bool true),
         ("tol", PyVal.num 1)]).calls = [] :=
  ⟨rfl, rfl⟩

/-- C1 amended: in a batched call that returns normally with batch size
`B` taken from the leading dimension of `x0`, exactly `B` solves are
made, and instance `i`'s solve receives element `i` of each of the
normalized `args` / `bounds` / `constraints` / `tol`, where normalization
replicates only the default values into length-`B` sequences (`bounds`
when `None`, `args` when `()`/`[]`/`None`, `constraints` when `()`, `tol`
when `None`); any other single value is subscripted as given, which for a
non-subscriptable value aborts the call with `TypeError` instead of
broadcasting it. -/
theorem C1_broadcast (solver : Solver) (s0 : WithTop ℚ) (x0 : Tensor)
    (kwargs : List (String × PyVal)) (cfg : Config) (B : Nat)
    (ans : Tensor) (suc : List Bool) (msg : List String)
    (hp : parseKwargs kwargs = .ok cfg)
    (hb : pyTruthy cfg.batchwise = true)
    (hB : x0.shape.head? = some B)
    (h : (Minimizer.minimize solver s0 x0 kwargs).result =
      .ok (ans, suc, msg)) :
    (Minimizer.minimize solver s0 x0 kwargs).calls.length = B ∧
    ∀ i, i < B →
      ∃ c, (Minimizer.minimize solver s0 x0 kwargs).calls[i]? = some c ∧
        getItem (normArgs B cfg.args) i = .ok c.args ∧
        getItem (normBounds B cfg.bounds) i = .ok c.bounds ∧
        getItem (normCons B cfg.constraints) i = .ok c.constraints ∧
        getItem (normTol B cfg.tol) i = .ok c.tol := by
  have hmm : Minimizer.minimize solver s0 x0 kwargs =
      runMinimize solver x0 cfg := by
    rw [Minimizer.minimize, hp]
  rw [hmm, runMinimize, if_pos hb] at h
  obtain ⟨b, rest, x0b, cs, hshape, hx0b, hmap, hrun, hsuc, hmsg, -⟩ :=
    runBatch_ok_full h
  have hbB : b = B := by
    rw [hshape] at hB
    exact Option.some.inj hB
  subst hbB
  have hcalls : (Minimizer.minimize solver s0 x0 kwargs).calls = cs := by
    rw [hmm, runMinimize, if_pos hb, hrun]
  have hlen : b = cs.length := by
    have := congrArg List.length hmap
    simpa using this
  refine ⟨by rw [hcalls, ← hlen], ?_⟩
  intro i hi
  have hidx := congrArg (fun l => l[i]?) hmap
  simp only [List.getElem?_map, List.getElem?_range hi] at hidx
  cases hc : cs[i]? with
  | none =>
    rw [hc] at hidx
    simp at hidx
  | some c =>
    rw [hc, Option.map_some'] at hidx
    have hprep := Option.some.inj hidx
    obtain ⟨ha, hbd, hcn, ht, -, -, -, -, -, -⟩ := prepareCall_ok_dest hprep
    exact ⟨c, by rw [hcalls]; exact hc, ha, hbd, hcn, ht⟩

theorem C1_broadcast_witness :
    parseKwargs [("args", .tuple []), ("batchwise", .bool true)] =
      .ok ⟨.tuple [], .none, false, false, .none, .none, .tuple [], .none,
           .none, .bool true⟩ ∧
    pyTruthy (PyVal.bool true) = true ∧
    (⟨[2, 1], [3, 4]⟩ : Tensor).shape.head? = some 2 ∧
    (Minimizer.minimize idSolver ⊤ ⟨[2, 1], [3, 4]⟩
        [("args", .tuple []), ("batchwise", .bool true)]).result =
      .ok (⟨[2, 1], [3, 4]⟩, [true, true], ["ok", "ok"]) ∧
    ((Minimizer.minimize idSolver ⊤ ⟨[2, 1], [3, 4]⟩
        [("args", .tuple []), ("batchwise", .bool true)]).calls.length = 2 ∧
     ∀ i, i < 2 →
      ∃ c, (Minimizer.minimize idSolver ⊤ ⟨[2, 1], [3, 4]⟩
          [("args", .tuple []), ("batchwise", .bool true)]).calls[i]? =
          some c ∧
        getItem (normArgs 2 (.tuple [])) i = .ok c.args ∧
        getItem (normBounds 2 .none) i = .ok c.bounds ∧
        getItem (normCons 2 (.tuple [])) i = .ok c.constraints ∧
        getItem (normTol 2 .none) i = .ok c.tol) :=
  ⟨rfl, rfl, rfl, rfl, C1_broadcast idSolver ⊤ ⟨[2, 1], [3, 4]⟩
    [("args", .tuple []), ("batchwise", .bool true)] _ 2 _ _ _ rfl rfl rfl
    rfl⟩

/-- The objective values observed through the `_obj_npy` value callback
across a sequence of solver invocations, in order. -/
def callEvals (solver : Solver) (cs : List SolverCall) : List ℚ :=
  (cs.map (fun c => (solver c).evals)).flatten

/-- C8: within one `minimize` call (batched or not), the minimum tracker
is `+infinity` before the first objective value evaluation, each value
evaluation replaces it by the minimum of its current value and the newly
observed value, and hence the trace of tracker states is non-increasing
across the whole call, batch instances included: the final `min_obj` is
the fold of `min` over all observed values starting from `+infinity`. -/
theorem C8_tracker_monotone (solver : Solver) (s0 : WithTop ℚ)
    (x0 : Tensor) (kwargs : List (String × PyVal)) (cfg : Config)
    (hp : parseKwargs kwargs = .ok cfg) :
    (List.scanl objUpdate ⊤
      (callEvals solver (Minimizer.minimize solver s0 x0 kwargs).calls)).head? =
      some ⊤ ∧
    (Minimizer.minimize solver s0 x0 kwargs).minObj =
      runEvals ⊤
        (callEvals solver (Minimizer.minimize solver s0 x0 kwargs).calls) ∧
    List.Chain' (fun a b => b ≤ a)
      (List.scanl objUpdate ⊤
        (callEvals solver (Minimizer.minimize solver s0 x0 kwargs).calls)) := by
  refine ⟨scanl_head _ _ _, ?_, scanl_objUpdate_chain _ _⟩
  have hmm : Minimizer.minimize solver s0 x0 kwargs =
      runMinimize solver x0 cfg := by
    rw [Minimizer.minimize, hp]
  rw [hmm, runMinimize]
  by_cases hb : pyTruthy cfg.batchwise
  · rw [if_pos hb, runBatch]
    split
    · rfl
    next b rest hshape =>
      split
      · rfl
      next x0b hx0b =>
        have key : ∀ st : LoopState,
            batchLoop solver
              (prepareCall x0b (normArgs b cfg.args)
                (normBounds b cfg.bounds) (normCons b cfg.constraints)
                (normTol b cfg.tol) cfg.method cfg.jac cfg.hess
                cfg.options cfg.callback)
              (List.range b) ⟨[], [], [], [], ⊤⟩ = (st, (batchLoop solver
                (prepareCall x0b (normArgs b cfg.args)
                  (normBounds b cfg.bounds) (normCons b cfg.constraints)
                  (normTol b cfg.tol) cfg.method cfg.jac cfg.hess
                  cfg.options cfg.callback)
                (List.range b) ⟨[], [], [], [], ⊤⟩).2) →
            st.minObj = runEvals ⊤ (callEvals solver st.calls) := by
          intro st hloop
          obtain ⟨cs, h1, h2, h3, h4, h5, h6, h7⟩ :=
            batchLoop_spec solver
              (prepareCall x0b (normArgs b cfg.args)
                (normBounds b cfg.bounds) (normCons b cfg.constraints)
                (normTol b cfg.tol) cfg.method cfg.jac cfg.hess
                cfg.options cfg.callback)
              (List.range b) ⟨[], [], [], [], ⊤⟩
          rw [hloop] at h1 h5
          simp only [List.nil_append] at h1 h5
          rw [h5, h1, callEvals, foldl_runEvals_eq]
        split
        next st e hloop =>
          exact key st (by rw [hloop])
        next st hloop =>
          have hst := key st (by rw [hloop])
          split
          · exact hst
          next stacked hstack =>
            split
            · exact hst
            next ans2 hresh => exact hst
  · rw [if_neg hb, runSingle_minObj, runSingle_calls]
    simp [callEvals, runEvals]

theorem C8_tracker_monotone_witness :
    parseKwargs [("args", .tuple []), ("batchwise", .bool false)] =
      .ok ⟨.tuple [], .none, false, false, .none, .none, .tuple [], .none,
           .none, .bool false⟩ ∧
    ((List.scanl objUpdate ⊤
      (callEvals (fun c => ⟨c.x0.data, true, "ok", [3, 1, 2]⟩)
        (Minimizer.minimize (fun c => ⟨c.x0.data, true, "ok", [3, 1, 2]⟩)
          ⊤ ⟨[2], [1, 2]⟩
          [("args", .tuple []), ("batchwise", .bool false)]).calls)).head? =
      some ⊤ ∧
    (Minimizer.minimize (fun c => ⟨c.x0.data, true, "ok", [3, 1, 2]⟩)
        ⊤ ⟨[2], [1, 2]⟩
        [("args", .tuple []), ("batchwise", .bool false)]).minObj =
      runEvals ⊤
        (callEvals (fun c => ⟨c.x0.data, true, "ok", [3, 1, 2]⟩)
          (Minimizer.minimize (fun c => ⟨c.x0.data, true, "ok", [3, 1, 2]⟩)
            ⊤ ⟨[2], [1, 2]⟩
            [("args", .tuple []), ("batchwise", .bool false)]).calls) ∧
    List.Chain' (fun a b => b ≤ a)
      (List.scanl objUpdate ⊤
        (callEvals (fun c => ⟨c.x0.data, true, "ok", [3, 1, 2]⟩)
          (Minimizer.minimize (fun c => ⟨c.x0.data, true, "ok", [3, 1, 2]⟩)
            ⊤ ⟨[2], [1, 2]⟩
            [("args", .tuple []), ("batchwise", .bool false)]).calls))) :=
  ⟨rfl, C8_tracker_monotone (fun c => ⟨c.x0.data, true, "ok", [3, 1, 2]⟩)
    ⊤ ⟨[2], [1, 2]⟩ [("args", .tuple []), ("batchwise", .bool false)] _
    rfl⟩

end Sotorch
